import Mathlib

/-!
Verification of the eng-pulse push fan-out subsystem.

This file embeds, as executable Lean definitions, the parts of the
repository that the specification's claims are about:

* the Python string operations the code relies on (strip, split,
  substring membership, slicing), modelled over lists of characters;
* the permanent-failure classification for the two push providers
  (functions/shared/apns_utils.py line 192 and
  functions/notifier/main.py line 159);
* the single-endpoint APNs sender (send_apns_notification), in its
  shared/apns_utils.py form and in the duplicated notifier/main.py form;
* the APNs credential cache (get_apns_credentials) as an explicit state
  transformer over a record of secret-fetch outcomes;
* the two fan-out dispatchers (send_apns_notifications and
  send_fcm_notifications), instrumented with a trace of the endpoint
  deactivation calls they issue;
* the title-derivation block of send_summary_email
  (functions/notifier/main.py lines 352-361);
* the endpoint store operations that touch the active flag
  (the active == True query, the deactivation update, and the
  register/unregister set-with-merge writes).

External effects (Firestore reads, HTTP responses, secret fetches) are
supplied as data in environment records, exactly as the repository's own
tests supply them through mocks.
-/

/-! ## Python string primitives -/

/-- Python str.strip() whitespace set: space, tab, newline, carriage
return, vertical tab, form feed. -/
def pyWhitespace (c : Char) : Bool :=
  c = ' ' || c = '\t' || c = '\n' || c = '\r' || c.toNat = 11 || c.toNat = 12

/-- Strip Python whitespace from both ends of a character list. -/
def stripChars (l : List Char) : List Char :=
  ((l.dropWhile pyWhitespace).reverse.dropWhile pyWhitespace).reverse

/-- Python str.strip() on a string. -/
def pyStrip (s : String) : String := String.mk (stripChars s.data)

/-- Does the first list start with the second (Python str.startswith)? -/
def listStartsWith : List Char → List Char → Bool
  | _, [] => true
  | [], _ :: _ => false
  | a :: as, b :: bs => a = b && listStartsWith as bs

/-- Substring occurrence test on character lists: the Python operator
pat in s is listHasSub s.data pat.data. -/
def listHasSub : List Char → List Char → Bool
  | [], pat => listStartsWith [] pat
  | c :: rest, pat => listStartsWith (c :: rest) pat || listHasSub rest pat

/-- Python substring membership pat in s (case-sensitive). -/
def strContainsSub (s pat : String) : Bool := listHasSub s.data pat.data

/-- Python s.startswith(pat). -/
def pyStartsWith (s pat : String) : Bool := listStartsWith s.data pat.data

/-- Python truthiness of a string: non-empty. -/
def nonEmptyStr (s : String) : Bool := !s.data.isEmpty

/-- Python s.split(sep) for a single-character separator: keeps empty
segments, and splitting the empty string yields one empty segment. -/
def splitCharsOn (sep : Char) : List Char → List (List Char)
  | [] => [[]]
  | c :: cs =>
    let r := splitCharsOn sep cs
    if c = sep then [] :: r
    else
      match r with
      | [] => [[c]]
      | g :: gs => (c :: g) :: gs

/-- Python content.split with a newline separator. -/
def pySplitNl (s : String) : List String :=
  (splitCharsOn '\n' s.data).map String.mk

/-! ## Provider failure classification -/

/-- Permanent-failure test for provider B, from
functions/shared/apns_utils.py line 192 (identically duplicated at
functions/notifier/main.py line 302 and functions/apns-notifier/main.py
line 297): the reason is compared for equality against the three-element
tuple of reason strings. -/
def apnsPermanentReason (r : String) : Bool :=
  r = "BadDeviceToken" || r = "Unregistered" || r = "ExpiredToken"

/-- Permanent-failure test for provider A, from
functions/notifier/main.py line 159: a case-sensitive substring test of
the raw response text against the two uppercase status codes. -/
def fcmPermanentText (t : String) : Bool :=
  strContainsSub t "UNREGISTERED" || strContainsSub t "INVALID_ARGUMENT"

/-! ## Title derivation (functions/notifier/main.py lines 352-361) -/

/-- Python stripped.lstrip with a hash argument. -/
def lstripHash (l : List Char) : List Char := l.dropWhile (fun c => c = '#')

/-- Python stripped slice to 80 chars plus ellipsis when longer:
stripped up to 80 characters, then three dots exactly when the stripped
line is longer than 80 characters. -/
def truncate80 (l : List Char) : List Char :=
  l.take 80 ++ (if l.length > 80 then "...".data else [])

/-- The for-loop over lines in send_summary_email: the first line whose
stripped form starts with a hash yields the heading text; otherwise the
first stripped line that is non-empty and does not start with an
asterisk yields the truncated line; otherwise the default title stands. -/
def titleLoop : List String → String
  | [] => "Daily Engineering Briefing"
  | line :: rest =>
    let stripped := pyStrip line
    if pyStartsWith stripped "#" then
      String.mk (stripChars (lstripHash stripped.data))
    else if nonEmptyStr stripped && !pyStartsWith stripped "*" then
      String.mk (truncate80 stripped.data)
    else
      titleLoop rest

/-- Title extraction of send_summary_email: content.strip().split on a
newline, then the line scan of titleLoop. -/
def summaryTitle (content : String) : String :=
  titleLoop (pySplitNl (pyStrip content))

/-- Title derivation as the claim words it: the title is the text of the
first line starting with a heading marker; else the first non-empty,
non-bullet line truncated to 80 characters; else the fixed default.
Written from the specification sentence, for comparison with
summaryTitle. -/
def specTitleC9 (content : String) : String :=
  let ls := (pySplitNl (pyStrip content)).map pyStrip
  match ls.find? (fun s => pyStartsWith s "#") with
  | some h => String.mk (stripChars (lstripHash h.data))
  | none =>
    match ls.find? (fun s => nonEmptyStr s && !pyStartsWith s "*") with
    | some l => String.mk (truncate80 l.data)
    | none => "Daily Engineering Briefing"

/-- The first non-empty line that does not start with a bullet marker
decides the title: a heading line yields its text with the markers
stripped, a plain line yields the truncated line, and the fixed default
stands when no line qualifies. -/
def findTitle : List String → String
  | [] => "Daily Engineering Briefing"
  | s :: rest =>
    if nonEmptyStr s && !pyStartsWith s "*" then
      if pyStartsWith s "#" then String.mk (stripChars (lstripHash s.data))
      else String.mk (truncate80 s.data)
    else findTitle rest

/-- Title derivation as the code actually behaves, phrased without the
break-driven loop: strip, split into lines, strip each line, and let
the first non-empty non-bullet line decide the title. -/
def amendedTitle (content : String) : String :=
  findTitle ((pySplitNl (pyStrip content)).map pyStrip)

/-- Decidable equality for exception-carrying outcomes, so that concrete
environments can be compared by evaluation. -/
instance {ε α : Type} [DecidableEq ε] [DecidableEq α] : DecidableEq (Except ε α) := fun x y =>
  match x, y with
  | .error a, .error b =>
    if h : a = b then .isTrue (by rw [h]) else .isFalse (by simp [h])
  | .ok a, .ok b =>
    if h : a = b then .isTrue (by rw [h]) else .isFalse (by simp [h])
  | .error _, .ok _ => .isFalse (by simp)
  | .ok _, .error _ => .isFalse (by simp)

/-! ## Single-endpoint APNs sender (provider B) -/

/-- Outcome data of one APNs HTTP exchange, as the sender observes it:
the status code, whether the response carried a body
(response.content truthiness), and the result of parsing that body as
JSON and reading its reason field — an error value models a parse
exception carrying its message, ok none models a JSON object without a
reason field, ok with a string models a present reason field. -/
structure ApnsResponse where
  status : Nat
  hasContent : Bool
  jsonReason : Except String (Option String)
deriving Repr, DecidableEq

/-- The shared single-endpoint sender, functions/shared/apns_utils.py
lines 96-144. credsOk is whether create_apns_jwt produced a token; the
transport outcome is either a network-level exception with its text or
a response. The inner try around the JSON parse catches a parse error
and falls back to the HTTP-status reason; the outer catch-all turns a
network exception into a failure carrying the exception text. -/
def send_apns_notification (credsOk : Bool)
    (transport : Except String ApnsResponse) : Bool × String :=
  if !credsOk then (false, "No APNs credentials")
  else
    match transport with
    | .error e => (false, e)
    | .ok r =>
      if r.status = 200 then (true, "")
      else
        let reason :=
          if r.hasContent then
            match r.jsonReason with
            | .error _ => "HTTP " ++ toString r.status
            | .ok none => "HTTP " ++ toString r.status
            | .ok (some rs) => rs
          else "HTTP " ++ toString r.status
        (false, reason)

/-- The duplicated single-endpoint sender of functions/notifier/main.py
lines 232-271 (and functions/apns-notifier/main.py): identical to the
shared one except that the JSON parse is not guarded by an inner try,
so a parse exception escapes to the outer catch-all and the failure
reason becomes the exception text rather than the HTTP-status fallback. -/
def send_apns_notification_dup (credsOk : Bool)
    (transport : Except String ApnsResponse) : Bool × String :=
  if !credsOk then (false, "No APNs credentials")
  else
    match transport with
    | .error e => (false, e)
    | .ok r =>
      if r.status = 200 then (true, "")
      else if r.hasContent then
        match r.jsonReason with
        | .error pe => (false, pe)
        | .ok none => (false, "HTTP " ++ toString r.status)
        | .ok (some rs) => (false, rs)
      else (false, "HTTP " ++ toString r.status)

/-! ## APNs credential cache (get_apns_credentials) -/

/-- The three module-level globals of functions/shared/apns_utils.py
lines 23-25 (duplicated in notifier/main.py and apns-notifier/main.py). -/
structure CredCache where
  key : Option String
  keyId : Option String
  teamId : Option String
deriving Repr, DecidableEq

/-- The state reset_apns_credentials leaves behind (all three globals
cleared), also the initial module state. -/
def reset_apns_credentials : CredCache := ⟨none, none, none⟩

/-- Outcomes of the three Secret Manager fetches, in the order the code
performs them: auth key, key id, team id. An error value models
access_secret_version (or decode) raising with that message. -/
structure SecretStore where
  fetchKey : Except String String
  fetchKeyId : Except String String
  fetchTeamId : Except String String
deriving Repr, DecidableEq

/-- get_apns_credentials of functions/shared/apns_utils.py lines 28-60,
as a state transformer over the global cache: if the key global is
already set the cached triple is returned unchanged; otherwise the three
secrets are fetched in order, each assigned to its global as soon as it
is fetched (key id and team id are stripped), and a raise anywhere
jumps to the except clause which returns the none triple — leaving
whatever globals were already assigned in place. -/
def get_apns_credentials (env : SecretStore) (st : CredCache) :
    (Option String × Option String × Option String) × CredCache :=
  if st.key.isSome then ((st.key, st.keyId, st.teamId), st)
  else
    match env.fetchKey with
    | .error _ => ((none, none, none), st)
    | .ok k =>
      let st1 : CredCache := ⟨some k, st.keyId, st.teamId⟩
      match env.fetchKeyId with
      | .error _ => ((none, none, none), st1)
      | .ok kid =>
        let st2 : CredCache := ⟨some k, some (pyStrip kid), st.teamId⟩
        match env.fetchTeamId with
        | .error _ => ((none, none, none), st2)
        | .ok tid =>
          let st3 : CredCache := ⟨some k, some (pyStrip kid), some (pyStrip tid)⟩
          ((some k, some (pyStrip kid), some (pyStrip tid)), st3)

/-! ## Fan-out dispatcher, provider B (send_apns_notifications) -/

/-- One Firestore document of the apns_tokens query result, with the
externally determined outcomes attached the way the repository's tests
attach them through mocks: token and sandbox are the stored fields read
by doc.to_dict(), sendResult is what send_apns_notification returns for
this device, updateResult is whether doc.reference.update raises. -/
structure ApnsDoc where
  token : Option String
  sandbox : Bool
  sendResult : Bool × String
  updateResult : Except String Unit
deriving Repr, DecidableEq

/-- Python truthiness of data.get of an optional string field. -/
def truthyStr : Option String → Bool
  | none => false
  | some t => nonEmptyStr t

/-- Observable outcome of one dispatch cycle: the returned success count
and the list of positions (in stream order) of the documents for which
an active-to-false update call was issued. -/
structure DispatchTrace where
  successCount : Nat
  deactAttempts : List Nat
deriving Repr, DecidableEq

/-- The for-loop of send_apns_notifications,
functions/shared/apns_utils.py lines 177-201, carrying the position of
the head document: a falsy token is skipped; a successful send
increments the count; a failed send with a permanent reason issues the
update call (recorded in the trace) whose own exception, if any, is
caught and changes nothing; any other failed send only logs. -/
def apnsLoop : List ApnsDoc → Nat → DispatchTrace
  | [], _ => ⟨0, []⟩
  | d :: ds, i =>
    let rest := apnsLoop ds (i + 1)
    if truthyStr d.token then
      if d.sendResult.1 then ⟨rest.successCount + 1, rest.deactAttempts⟩
      else if apnsPermanentReason d.sendResult.2 then
        match d.updateResult with
        | .ok _ => ⟨rest.successCount, i :: rest.deactAttempts⟩
        | .error _ => ⟨rest.successCount, i :: rest.deactAttempts⟩
      else rest
    else rest

/-- Environment of one provider-B dispatch cycle: the outcome of listing
the active documents (an error models the Firestore client or the
stream raising, which the outer try of the dispatcher catches). -/
structure ApnsEnv where
  listDocs : Except String (List ApnsDoc)
deriving Repr, DecidableEq

/-- Dispatch trace of send_apns_notifications,
functions/shared/apns_utils.py lines 147-212: a listing error is caught
by the outer except and yields the empty trace; an empty listing
returns before the loop; otherwise the loop runs over all documents. -/
def apnsDispatchTrace (env : ApnsEnv) : DispatchTrace :=
  match env.listDocs with
  | .error _ => ⟨0, []⟩
  | .ok docs => if docs.isEmpty then ⟨0, []⟩ else apnsLoop docs 0

/-- The integer send_apns_notifications returns. -/
def send_apns_notifications (env : ApnsEnv) : Nat :=
  (apnsDispatchTrace env).successCount

/-! ## Fan-out dispatcher, provider A (send_fcm_notifications) -/

/-- One Firestore document of the fcm_tokens query result. token is the
stored field read by doc.to_dict(); sendResult is the outcome of
send_fcm_notification_http for this token — an error models
requests.post raising (that call has no try of its own, so the raise
escapes to the dispatcher), an ok value carries the pair of the
status-equals-200 flag and the raw response text; updateResult is
whether the deactivation update raises. -/
structure FcmDoc where
  id : String
  token : Option String
  sendResult : Except String (Bool × String)
  updateResult : Except String Unit
deriving Repr, DecidableEq

/-- The filtering pass of send_fcm_notifications,
functions/notifier/main.py lines 135-141: only documents whose token
field is truthy enter the tokens and doc_ids lists. -/
def fcmBatch (docs : List FcmDoc) : List FcmDoc :=
  docs.filter (fun d => truthyStr d.token)

/-- The for-loop of send_fcm_notifications, functions/notifier/main.py
lines 150-166, over the filtered batch, carrying the head position: a
raising send escapes the loop (the dispatcher's outer except turns it
into a 0 return); a successful send increments the count; a failed send
whose response text matches the permanent set issues the deactivation
update (recorded in the trace) whose own exception, if any, is caught
and changes nothing; any other failed send only logs. -/
def fcmLoop : List FcmDoc → Nat → Except String DispatchTrace
  | [], _ => .ok ⟨0, []⟩
  | d :: ds, i =>
    match d.sendResult with
    | .error e => .error e
    | .ok (succ, text) =>
      match fcmLoop ds (i + 1) with
      | .error e => .error e
      | .ok rest =>
        if succ then .ok ⟨rest.successCount + 1, rest.deactAttempts⟩
        else if fcmPermanentText text then
          match d.updateResult with
          | .ok _ => .ok ⟨rest.successCount, i :: rest.deactAttempts⟩
          | .error _ => .ok ⟨rest.successCount, i :: rest.deactAttempts⟩
        else .ok rest

/-- Environment of one provider-A dispatch cycle: the outcome of
get_access_token (which can raise into the dispatcher's outer except)
and of listing the fcm_tokens documents. -/
structure FcmEnv where
  accessToken : Except String String
  listDocs : Except String (List FcmDoc)
deriving Repr, DecidableEq

/-- Dispatch trace of send_fcm_notifications,
functions/notifier/main.py lines 113-175, before the outer except is
applied: credential or listing failure propagates, an empty filtered
batch returns before the loop, otherwise the loop runs. -/
def fcmDispatchTrace (env : FcmEnv) : Except String DispatchTrace :=
  match env.accessToken with
  | .error e => .error e
  | .ok _ =>
    match env.listDocs with
    | .error e => .error e
    | .ok docs =>
      let batch := fcmBatch docs
      if batch.isEmpty then .ok ⟨0, []⟩
      else fcmLoop batch 0

/-- The integer send_fcm_notifications returns: the loop's count, with
the outer except folding every escaped exception into 0. -/
def send_fcm_notifications (env : FcmEnv) : Nat :=
  match fcmDispatchTrace env with
  | .ok tr => tr.successCount
  | .error _ => 0

/-! ## Endpoint store operations on the active flag -/

/-- The stored fields of one endpoint record that the core's control
flow reads or writes; the informational timestamp and version fields do
not influence any branch and are omitted. -/
structure EndpointRec where
  token : Option String
  active : Bool
deriving Repr, DecidableEq

/-- A document collection: association list from document id to record,
as the Firestore collections hold them. -/
abbrev Store := List (String × EndpointRec)

/-- The active == True query the dispatchers build
(functions/shared/apns_utils.py lines 166-167,
functions/notifier/main.py line 132): only documents whose active field
equals true are streamed. -/
def listActive (st : Store) : Store :=
  st.filter (fun p => p.2.active)

/-- The operations the repository performs on an endpoint collection. -/
inductive StoreOp : Type
  /-- doc.reference.update setting active to false — the dispatchers'
  deactivation, functions/shared/apns_utils.py line 196 and
  functions/notifier/main.py lines 161-163. -/
  | deactivate (id : String)
  /-- unregister_token's set with merge writing active false,
  functions/fcm-tokens/main.py lines 204-209. -/
  | unregister (id : String)
  /-- register_token's set with merge writing the full record with
  active true, functions/fcm-tokens/main.py lines 140-151 (and the
  analogous register_apns_token). -/
  | register (id : String)
deriving Repr, DecidableEq

/-- Replace the record stored under an id. -/
def setField (st : Store) (id : String) (f : EndpointRec → EndpointRec) : Store :=
  st.map (fun p => (p.1, if p.1 = id then f p.2 else p.2))

/-- Is a document id present? -/
def storeHas (st : Store) (id : String) : Bool :=
  st.any (fun p => p.1 = id)

/-- Apply one operation to a collection. deactivate updates an existing
document's active field (an update on an absent document raises and is
caught by the caller, leaving the store unchanged); unregister merges
active false into the document, creating it when absent; register
merges the full field set with active true and the token equal to the
document id, creating the document when absent. -/
def applyOp : StoreOp → Store → Store
  | .deactivate id, st => setField st id (fun r => { r with active := false })
  | .unregister id, st =>
    if storeHas st id then setField st id (fun r => { r with active := false })
    else st ++ [(id, ⟨none, false⟩)]
  | .register id, st =>
    if storeHas st id then
      setField st id (fun r => { r with token := some id, active := true })
    else st ++ [(id, ⟨some id, true⟩)]

/-- Lookup a document by id. -/
def storeGet (st : Store) (id : String) : Option EndpointRec :=
  (st.find? (fun p => p.1 = id)).map (fun p => p.2)

/-! ## Derived predicates used to state the claims -/

/-- A provider-B document contributes to the success count exactly when
its token is truthy and its send succeeded. -/
def apnsSuccess (d : ApnsDoc) : Bool := truthyStr d.token && d.sendResult.1

/-- A provider-B document draws a deactivation call exactly when its
token is truthy, its send failed, and the reason is in the permanent
set. -/
def apnsDeactCond (d : ApnsDoc) : Bool :=
  truthyStr d.token && !d.sendResult.1 && apnsPermanentReason d.sendResult.2

/-- A provider-A document contributes to the count exactly when its
send returned and succeeded. -/
def fcmSuccess (d : FcmDoc) : Bool :=
  match d.sendResult with
  | .ok (s, _) => s
  | .error _ => false

/-- A provider-A document draws a deactivation call exactly when its
send returned a failure whose response text matches the permanent set. -/
def fcmDeactCond (d : FcmDoc) : Bool :=
  match d.sendResult with
  | .ok (s, t) => !s && fcmPermanentText t
  | .error _ => false

/-! ## Theorems: helper lemmas about the provider-B loop -/

theorem apnsLoop_successCount (ds : List ApnsDoc) (i : Nat) :
    (apnsLoop ds i).successCount = ds.countP apnsSuccess := by
  induction ds generalizing i with
  | nil => simp [apnsLoop, List.countP_nil]
  | cons d ds ih =>
    simp only [apnsLoop, List.countP_cons]
    by_cases h1 : truthyStr d.token
    · by_cases h2 : d.sendResult.1
      · simp [h1, h2, apnsSuccess, ih]
      · by_cases h3 : apnsPermanentReason d.sendResult.2
        · cases hu : d.updateResult <;>
            simp [h1, h2, h3, hu, apnsSuccess, ih]
        · simp [h1, h2, h3, apnsSuccess, ih]
    · simp [h1, apnsSuccess, ih]

theorem apnsLoop_deact_mem (ds : List ApnsDoc) (i j : Nat) :
    j ∈ (apnsLoop ds i).deactAttempts ↔
      ∃ k d, ds[k]? = some d ∧ j = i + k ∧ apnsDeactCond d = true := by
  induction ds generalizing i with
  | nil => simp [apnsLoop]
  | cons d ds ih =>
    have step : ∀ P : Prop,
        ((∃ k d2, ds[k]? = some d2 ∧ j = (i + 1) + k ∧ apnsDeactCond d2 = true) ↔ P) →
        ((∃ k d2, (d :: ds)[k]? = some d2 ∧ j = i + k ∧ apnsDeactCond d2 = true) ↔
          (j = i ∧ apnsDeactCond d = true) ∨ P) := by
      intro P hP
      constructor
      · rintro ⟨k, d2, hget, hj, hcond⟩
        cases k with
        | zero =>
          left
          simp only [List.getElem?_cons_zero, Option.some.injEq] at hget
          subst hget
          exact ⟨by omega, hcond⟩
        | succ k =>
          right
          refine hP.mp ⟨k, d2, ?_, by omega, hcond⟩
          simpa using hget
      · rintro (⟨hj, hcond⟩ | hp)
        · exact ⟨0, d, by simp, by omega, hcond⟩
        · obtain ⟨k, d2, hget, hj, hcond⟩ := hP.mpr hp
          exact ⟨k + 1, d2, by simpa using hget, by omega, hcond⟩
    simp only [apnsLoop]
    by_cases h1 : truthyStr d.token
    · by_cases h2 : d.sendResult.1
      · rw [step _ (ih (i + 1)).symm]
        simp [h1, h2, apnsDeactCond, ih]
      · by_cases h3 : apnsPermanentReason d.sendResult.2
        · rw [step _ (ih (i + 1)).symm]
          cases hu : d.updateResult <;>
            simp [h1, h2, h3, hu, apnsDeactCond, ih, List.mem_cons]
        · rw [step _ (ih (i + 1)).symm]
          simp [h1, h2, h3, apnsDeactCond, ih]
    · rw [step _ (ih (i + 1)).symm]
      simp [h1, apnsDeactCond, ih]

theorem apnsLoop_deact_ge (ds : List ApnsDoc) (i : Nat) :
    ∀ j ∈ (apnsLoop ds i).deactAttempts, i ≤ j := by
  intro j hj
  obtain ⟨k, d, -, hj, -⟩ := (apnsLoop_deact_mem ds i j).mp hj
  omega

theorem apnsLoop_deact_nodup (ds : List ApnsDoc) (i : Nat) :
    (apnsLoop ds i).deactAttempts.Nodup := by
  induction ds generalizing i with
  | nil => simp [apnsLoop]
  | cons d ds ih =>
    simp only [apnsLoop]
    by_cases h1 : truthyStr d.token
    · by_cases h2 : d.sendResult.1
      · simpa [h1, h2] using ih (i + 1)
      · by_cases h3 : apnsPermanentReason d.sendResult.2
        · have hge := apnsLoop_deact_ge ds (i + 1)
          cases hu : d.updateResult <;>
            · simp only [h1, h2, h3, hu, if_pos, if_neg, Bool.not_eq_true,
                List.nodup_cons]
              refine ⟨fun hmem => ?_, ih (i + 1)⟩
              have := hge i hmem
              omega
        · simpa [h1, h2, h3] using ih (i + 1)
    · simpa [h1] using ih (i + 1)

theorem apnsLoop_update_irrel (ds : List ApnsDoc) (i : Nat)
    (f : ApnsDoc → Except String Unit) :
    apnsLoop (ds.map (fun d => { d with updateResult := f d })) i = apnsLoop ds i := by
  induction ds generalizing i with
  | nil => simp [apnsLoop]
  | cons d ds ih =>
    simp only [List.map_cons, apnsLoop, ih]
    by_cases h1 : truthyStr d.token
    · by_cases h2 : d.sendResult.1
      · simp [h1, h2]
      · by_cases h3 : apnsPermanentReason d.sendResult.2
        · cases hu : d.updateResult <;> cases hf : f d <;> simp [h1, h2, h3, hu, hf]
        · simp [h1, h2, h3]
    · simp [h1]

/-! ## Helper lemmas about the provider-A loop -/

theorem fcmLoop_error (ds : List FcmDoc) (i : Nat) (d : FcmDoc) (e : String)
    (hd : d ∈ ds) (he : d.sendResult = .error e) :
    ∃ e2, fcmLoop ds i = .error e2 := by
  induction ds generalizing i with
  | nil => simp at hd
  | cons d0 ds ih =>
    rcases List.mem_cons.mp hd with h | h
    · subst h
      exact ⟨e, by simp [fcmLoop, he]⟩
    · cases hs : d0.sendResult with
      | error e0 => exact ⟨e0, by simp [fcmLoop, hs]⟩
      | ok p =>
        obtain ⟨e2, h2⟩ := ih (i + 1) h
        exact ⟨e2, by simp [fcmLoop, hs, h2]⟩

theorem fcmLoop_ok (ds : List FcmDoc) (i : Nat)
    (hok : ∀ d ∈ ds, ∃ p, d.sendResult = .ok p) :
    ∃ tr, fcmLoop ds i = .ok tr ∧
      tr.successCount = ds.countP fcmSuccess ∧
      (∀ j, j ∈ tr.deactAttempts ↔
        ∃ k d, ds[k]? = some d ∧ j = i + k ∧ fcmDeactCond d = true) ∧
      tr.deactAttempts.Nodup := by
  induction ds generalizing i with
  | nil =>
    refine ⟨⟨0, []⟩, by simp [fcmLoop], by simp [List.countP_nil], ?_, by simp⟩
    simp [fcmLoop]
  | cons d ds ih =>
    obtain ⟨⟨s, t⟩, hs⟩ := hok d (by simp)
    obtain ⟨tr, htr, hcount, hmem, hnodup⟩ :=
      ih (i + 1) (fun d2 h2 => hok d2 (by simp [h2]))
    have hge : ∀ j ∈ tr.deactAttempts, i + 1 ≤ j := by
      intro j hj
      obtain ⟨k, d2, -, hj, -⟩ := (hmem j).mp hj
      omega
    have step : ∀ j : Nat,
        ((j = i ∧ fcmDeactCond d = true) ∨ j ∈ tr.deactAttempts) ↔
          ∃ k d2, (d :: ds)[k]? = some d2 ∧ j = i + k ∧ fcmDeactCond d2 = true := by
      intro j
      constructor
      · rintro (⟨hj, hcond⟩ | hp)
        · exact ⟨0, d, by simp, by omega, hcond⟩
        · obtain ⟨k, d2, hget, hj, hcond⟩ := (hmem j).mp hp
          exact ⟨k + 1, d2, by simpa using hget, by omega, hcond⟩
      · rintro ⟨k, d2, hget, hj, hcond⟩
        cases k with
        | zero =>
          left
          simp only [List.getElem?_cons_zero, Option.some.injEq] at hget
          subst hget
          exact ⟨by omega, hcond⟩
        | succ k =>
          right
          exact (hmem j).mpr ⟨k, d2, by simpa using hget, by omega, hcond⟩
    by_cases hsucc : s
    · refine ⟨⟨tr.successCount + 1, tr.deactAttempts⟩, ?_, ?_, ?_, hnodup⟩
      · simp [fcmLoop, hs, htr, hsucc]
      · simp [List.countP_cons, fcmSuccess, hs, hsucc, hcount]
      · intro j
        rw [← step j]
        have : fcmDeactCond d = false := by simp [fcmDeactCond, hs, hsucc]
        simp [this]
    · by_cases hperm : fcmPermanentText t
      · refine ⟨⟨tr.successCount, i :: tr.deactAttempts⟩, ?_, ?_, ?_, ?_⟩
        · cases hu : d.updateResult <;> simp [fcmLoop, hs, htr, hsucc, hperm, hu]
        · simp [List.countP_cons, fcmSuccess, hs, hsucc, hcount]
        · intro j
          rw [← step j]
          have : fcmDeactCond d = true := by simp [fcmDeactCond, hs, hsucc, hperm]
          simp [this, List.mem_cons]
        · refine List.nodup_cons.mpr ⟨fun hmem2 => ?_, hnodup⟩
          have := hge i hmem2
          omega
      · refine ⟨tr, ?_, ?_, ?_, hnodup⟩
        · simp [fcmLoop, hs, htr, hsucc, hperm]
        · simp [List.countP_cons, fcmSuccess, hs, hsucc, hcount]
        · intro j
          rw [← step j]
          have : fcmDeactCond d = false := by simp [fcmDeactCond, hs, hsucc, hperm]
          simp [this]

theorem fcmLoop_update_irrel (ds : List FcmDoc) (i : Nat)
    (f : FcmDoc → Except String Unit) :
    fcmLoop (ds.map (fun d => { d with updateResult := f d })) i = fcmLoop ds i := by
  induction ds generalizing i with
  | nil => simp [fcmLoop]
  | cons d ds ih =>
    simp only [List.map_cons, fcmLoop, ih]
    cases hs : d.sendResult with
    | error e => simp
    | ok p =>
      obtain ⟨s, t⟩ := p
      cases htr : fcmLoop ds (i + 1) with
      | error e => simp
      | ok tr =>
        by_cases hsucc : s
        · simp [hsucc]
        · by_cases hperm : fcmPermanentText t
          · cases hu : d.updateResult <;> cases hf : f d <;>
              simp [hsucc, hperm, hu, hf]
          · simp [hsucc, hperm]

/-! ## Theorems: title derivation -/

theorem startsWithHash_facts (s : String) (h : pyStartsWith s "#" = true) :
    nonEmptyStr s = true ∧ pyStartsWith s "*" = false := by
  cases hd : s.data with
  | nil =>
    exfalso
    have h2 : listStartsWith s.data ['#'] = true := h
    rw [hd] at h2
    simp [listStartsWith] at h2
  | cons a as =>
    have h2 : listStartsWith (a :: as) ['#'] = true := by
      have h3 : listStartsWith s.data ['#'] = true := h
      rwa [hd] at h3
    have ha : a = '#' := by simpa [listStartsWith] using h2
    constructor
    · simp [nonEmptyStr, hd]
    · show listStartsWith s.data ['*'] = false
      rw [hd, ha]
      simp [listStartsWith]

theorem titleLoop_eq_findTitle (ls : List String) :
    titleLoop ls = findTitle (ls.map pyStrip) := by
  induction ls with
  | nil => simp [titleLoop, findTitle]
  | cons line rest ih =>
    simp only [titleLoop, List.map_cons, findTitle]
    by_cases h1 : pyStartsWith (pyStrip line) "#"
    · obtain ⟨hne, hstar⟩ := startsWithHash_facts _ h1
      simp [h1, hne, hstar]
    · by_cases h2 : (nonEmptyStr (pyStrip line) && !pyStartsWith (pyStrip line) "*") = true
      · simp [h1, h2]
      · simp only [Bool.not_eq_true] at h2
        simp [h1, h2, ih]

/-! ## Claim C9 -/

/-- C9 counterexample: the claim reads the title as the text of the
first line starting with a heading marker whenever one exists, but on a
document whose heading is preceded by a plain line the code stops at
the plain line: the loop breaks on the first non-empty non-bullet line
regardless of later headings, so the claimed derivation and the code
disagree on this input. -/
theorem title_heading_priority_refuted :
    specTitleC9 "Intro line\n# Real Title" = "Real Title" ∧
    summaryTitle "Intro line\n# Real Title" = "Intro line" ∧
    ("Intro line" : String) ≠ "Real Title" := by
  refine ⟨by decide, by decide, by decide⟩

/-- C9 amended: the title is derived from the first non-empty line that
does not start with a bullet marker — heading text when that line
starts with a heading marker, the line truncated to 80 characters with
a continuation marker when longer otherwise — and the fixed default
when no line qualifies; in particular a document beginning with a
heading line titled My Title yields exactly that title. -/
theorem title_first_plain_line :
    (∀ content, summaryTitle content = amendedTitle content) ∧
    summaryTitle "# My Title\n\nBody text..." = "My Title" := by
  constructor
  · intro content
    exact titleLoop_eq_findTitle _
  · decide

/-! ## Claim C4 -/

/-- C4 counterexample: a provider-A send failing with the reason text
of the legacy invalid-registration-token error code does not trigger a
deactivation, because the dispatcher matches the response text
case-sensitively against the two uppercase status codes and the legacy
code contains neither: dispatching one such document issues no
deactivation call (and returns 0). -/
theorem fcm_legacy_reason_no_deactivation :
    fcmPermanentText "messaging/invalid-registration-token" = false ∧
    fcmDispatchTrace
      ⟨.ok "at", .ok [⟨"d0", some "tok0",
        .ok (false, "messaging/invalid-registration-token"), .ok ()⟩]⟩ =
      .ok ⟨0, []⟩ := by
  refine ⟨by decide, by decide⟩

/-- C4 amended: provider-A deactivation is keyed on a case-sensitive
substring match of the response text against UNREGISTERED and
INVALID_ARGUMENT; a failure whose text contains INVALID_ARGUMENT
triggers deactivation, while the reason texts of the legacy
invalid-registration-token code and of the internal-error code do not,
since neither contains the uppercase codes. -/
theorem fcm_case_sensitive_classification :
    fcmPermanentText "error INVALID_ARGUMENT: registration token" = true ∧
    fcmPermanentText "messaging/invalid-registration-token" = false ∧
    fcmPermanentText "messaging/internal-error" = false ∧
    fcmDispatchTrace
      ⟨.ok "at", .ok
        [⟨"d0", some "tok0", .ok (false, "messaging/internal-error"), .ok ()⟩,
         ⟨"d1", some "tok1",
           .ok (false, "error INVALID_ARGUMENT: registration token"), .ok ()⟩]⟩ =
      .ok ⟨0, [1]⟩ := by
  refine ⟨by decide, by decide, by decide, by decide⟩

/-! ## Claim C1 -/

theorem apnsDeactCond_iff (d : ApnsDoc) :
    apnsDeactCond d = true ↔
      truthyStr d.token = true ∧ d.sendResult.1 = false ∧
        apnsPermanentReason d.sendResult.2 = true := by
  simp [apnsDeactCond, Bool.and_assoc]

theorem fcmDeactCond_iff (d : FcmDoc) :
    fcmDeactCond d = true ↔
      ∃ s t, d.sendResult = .ok (s, t) ∧ s = false ∧
        fcmPermanentText t = true := by
  cases hs : d.sendResult with
  | error e => simp [fcmDeactCond, hs]
  | ok p =>
    obtain ⟨s, t⟩ := p
    by_cases hb : s <;> simp [fcmDeactCond, hs, hb]

/-- C1: in a dispatch cycle a deactivation call is issued for a
document exactly when its send failed with a permanent reason — for
provider B exactly when the reason string is one of the three permanent
reason strings, for provider A exactly when the response text contains
one of the two uppercase status codes; every other outcome causes no
deactivation call. -/
theorem deactivation_iff_permanent_reason :
    (∀ (env : ApnsEnv) (docs : List ApnsDoc), env.listDocs = .ok docs →
      ∀ j, j ∈ (apnsDispatchTrace env).deactAttempts ↔
        ∃ k d, docs[k]? = some d ∧ j = k ∧
          truthyStr d.token = true ∧ d.sendResult.1 = false ∧
          apnsPermanentReason d.sendResult.2 = true) ∧
    (∀ (env : FcmEnv) (tok : String) (docs : List FcmDoc),
      env.accessToken = .ok tok → env.listDocs = .ok docs →
      (∀ d ∈ fcmBatch docs, ∃ p, d.sendResult = .ok p) →
      ∃ tr, fcmDispatchTrace env = .ok tr ∧
        ∀ j, j ∈ tr.deactAttempts ↔
          ∃ k d s t, (fcmBatch docs)[k]? = some d ∧ j = k ∧
            d.sendResult = .ok (s, t) ∧ s = false ∧
            fcmPermanentText t = true) := by
  constructor
  · intro env docs h j
    have htrace : apnsDispatchTrace env =
        if docs.isEmpty then ⟨0, []⟩ else apnsLoop docs 0 := by
      simp [apnsDispatchTrace, h]
    cases docs with
    | nil => simp [htrace]
    | cons d0 ds =>
      rw [htrace]
      simp only [List.isEmpty_cons, if_neg Bool.false_ne_true]
      rw [apnsLoop_deact_mem]
      constructor
      · rintro ⟨k, d, hget, hj, hcond⟩
        obtain ⟨h1, h2, h3⟩ := (apnsDeactCond_iff d).mp hcond
        exact ⟨k, d, hget, by omega, h1, h2, h3⟩
      · rintro ⟨k, d, hget, hj, h1, h2, h3⟩
        exact ⟨k, d, hget, by omega, (apnsDeactCond_iff d).mpr ⟨h1, h2, h3⟩⟩
  · intro env tok docs hat h hok
    have htrace : fcmDispatchTrace env =
        if (fcmBatch docs).isEmpty then .ok ⟨0, []⟩
        else fcmLoop (fcmBatch docs) 0 := by
      simp [fcmDispatchTrace, hat, h]
    by_cases hemp : (fcmBatch docs).isEmpty
    · refine ⟨⟨0, []⟩, by simp [htrace, hemp], ?_⟩
      intro j
      have : fcmBatch docs = [] := List.isEmpty_iff.mp hemp
      simp [this]
    · obtain ⟨tr, htr, -, hmem, -⟩ := fcmLoop_ok (fcmBatch docs) 0 hok
      refine ⟨tr, by simp [htrace, hemp, htr], ?_⟩
      intro j
      rw [hmem j]
      constructor
      · rintro ⟨k, d, hget, hj, hcond⟩
        obtain ⟨s, t, hs, hsf, hperm⟩ := (fcmDeactCond_iff d).mp hcond
        exact ⟨k, d, s, t, hget, by omega, hs, hsf, hperm⟩
      · rintro ⟨k, d, s, t, hget, hj, hs, hsf, hperm⟩
        exact ⟨k, d, hget, by omega, (fcmDeactCond_iff d).mpr ⟨s, t, hs, hsf, hperm⟩⟩

/-- C1 witness: a concrete cycle per provider — for provider B a
permanent reason draws the deactivation call and a transient reason
does not; for provider A a response text containing an uppercase status
code draws it. -/
theorem deactivation_iff_permanent_reason_witness :
    (0 ∈ (apnsDispatchTrace ⟨.ok
        [⟨some "t0", false, (false, "BadDeviceToken"), .ok ()⟩,
         ⟨some "t1", false, (false, "Shutdown"), .ok ()⟩]⟩).deactAttempts ∧
      1 ∉ (apnsDispatchTrace ⟨.ok
        [⟨some "t0", false, (false, "BadDeviceToken"), .ok ()⟩,
         ⟨some "t1", false, (false, "Shutdown"), .ok ()⟩]⟩).deactAttempts) ∧
    ∃ tr, fcmDispatchTrace
        ⟨.ok "at", .ok [⟨"d0", some "tk0", .ok (false, "UNREGISTERED"), .ok ()⟩]⟩ =
        .ok tr ∧ 0 ∈ tr.deactAttempts := by
  have h := deactivation_iff_permanent_reason
  refine ⟨⟨?_, ?_⟩, ?_⟩
  · exact (h.1 _ _ rfl 0).mpr ⟨0, _, rfl, rfl, by decide, by decide, by decide⟩
  · intro hmem
    obtain ⟨k, d, hget, hj, h1, h2, h3⟩ := (h.1 _ _ rfl 1).mp hmem
    subst hj
    simp only [List.getElem?_cons_succ, List.getElem?_cons_zero,
      Option.some.injEq] at hget
    subst hget
    exact absurd h3 (by decide)
  · have hok : ∀ d ∈ fcmBatch
        [⟨"d0", some "tk0", .ok (false, "UNREGISTERED"), .ok ()⟩],
        ∃ p, d.sendResult = Except.ok p := by
      intro d hd
      have hb : fcmBatch
          [⟨"d0", some "tk0", .ok (false, "UNREGISTERED"), .ok ()⟩] =
          [⟨"d0", some "tk0", .ok (false, "UNREGISTERED"), .ok ()⟩] := by decide
      rw [hb, List.mem_singleton] at hd
      subst hd
      exact ⟨(false, "UNREGISTERED"), rfl⟩
    obtain ⟨tr, htr, hiff⟩ := h.2
      ⟨.ok "at", .ok [⟨"d0", some "tk0", .ok (false, "UNREGISTERED"), .ok ()⟩]⟩
      "at" [⟨"d0", some "tk0", .ok (false, "UNREGISTERED"), .ok ()⟩] rfl rfl hok
    exact ⟨tr, htr, (hiff 0).mpr ⟨0, _, false, "UNREGISTERED", rfl, rfl, rfl, rfl, by decide⟩⟩

/-! ## Claim C3 -/

theorem fcmBatch_update_map (docs : List FcmDoc)
    (f : FcmDoc → Except String Unit) :
    fcmBatch (docs.map (fun d => { d with updateResult := f d })) =
      (fcmBatch docs).map (fun d => { d with updateResult := f d }) := by
  induction docs with
  | nil => simp [fcmBatch]
  | cons d ds ih =>
    by_cases h : truthyStr d.token <;>
      simp [fcmBatch, List.filter_cons, h, ih] <;>
      simpa [fcmBatch] using ih

/-- C3: a permanently failed endpoint draws exactly one deactivation
call and is excluded from the success count, and deactivation-call
failures are swallowed — replacing every update outcome by a raising
one leaves the whole dispatch trace (count and calls) unchanged for
both providers. -/
theorem permanent_failure_deactivates_once :
    (∀ (env : ApnsEnv) (docs : List ApnsDoc) (k : Nat) (d : ApnsDoc),
      env.listDocs = .ok docs → docs[k]? = some d → apnsDeactCond d = true →
      (apnsDispatchTrace env).deactAttempts.count k = 1 ∧
        send_apns_notifications env = docs.countP apnsSuccess ∧
        apnsSuccess d = false) ∧
    (∀ (docs : List ApnsDoc) (u : String),
      apnsDispatchTrace
          ⟨.ok (docs.map (fun d2 => { d2 with updateResult := .error u }))⟩ =
        apnsDispatchTrace ⟨.ok docs⟩) ∧
    (∀ (env : FcmEnv) (tok : String) (docs : List FcmDoc) (k : Nat) (d : FcmDoc),
      env.accessToken = .ok tok → env.listDocs = .ok docs →
      (∀ d2 ∈ fcmBatch docs, ∃ p, d2.sendResult = .ok p) →
      (fcmBatch docs)[k]? = some d → fcmDeactCond d = true →
      ∃ tr, fcmDispatchTrace env = .ok tr ∧
        tr.deactAttempts.count k = 1 ∧
        send_fcm_notifications env = (fcmBatch docs).countP fcmSuccess ∧
        fcmSuccess d = false) ∧
    (∀ (docs : List FcmDoc) (u : String) (tok : Except String String),
      fcmDispatchTrace
          ⟨tok, .ok (docs.map (fun d2 => { d2 with updateResult := .error u }))⟩ =
        fcmDispatchTrace ⟨tok, .ok docs⟩) := by
  refine ⟨?_, ?_, ?_, ?_⟩
  · intro env docs k d h hget hcond
    have hne : ¬docs.isEmpty := by
      cases docs with
      | nil => simp at hget
      | cons d0 ds => simp
    have htrace : apnsDispatchTrace env = apnsLoop docs 0 := by
      simp [apnsDispatchTrace, h, hne]
    have hmem : k ∈ (apnsLoop docs 0).deactAttempts :=
      (apnsLoop_deact_mem docs 0 k).mpr ⟨k, d, hget, by omega, hcond⟩
    refine ⟨?_, ?_, ?_⟩
    · rw [htrace]
      exact List.count_eq_one_of_mem (apnsLoop_deact_nodup docs 0) hmem
    · show (apnsDispatchTrace env).successCount = _
      rw [htrace, apnsLoop_successCount]
    · obtain ⟨h1, h2, h3⟩ := (apnsDeactCond_iff d).mp hcond
      simp [apnsSuccess, h1, h2]
  · intro docs u
    have hemp : (docs.map
        (fun d2 => { d2 with updateResult := Except.error u })).isEmpty =
        docs.isEmpty := by
      cases docs <;> simp
    by_cases he : docs.isEmpty
    · simp [apnsDispatchTrace, hemp, he]
    · simp only [apnsDispatchTrace, hemp, he, if_neg, Bool.false_eq_true,
        not_false_iff]
      rw [apnsLoop_update_irrel docs 0 (fun _ => Except.error u)]
  · intro env tok docs k d hat h hok hget hcond
    have hne : ¬(fcmBatch docs).isEmpty := by
      cases hb : fcmBatch docs with
      | nil => rw [hb] at hget; simp at hget
      | cons d0 ds => simp
    obtain ⟨tr, htr, hcount, hmem, hnodup⟩ := fcmLoop_ok (fcmBatch docs) 0 hok
    have htrace : fcmDispatchTrace env = .ok tr := by
      simp [fcmDispatchTrace, hat, h, hne, htr]
    refine ⟨tr, htrace, ?_, ?_, ?_⟩
    · exact List.count_eq_one_of_mem hnodup
        ((hmem k).mpr ⟨k, d, hget, by omega, hcond⟩)
    · simp [send_fcm_notifications, htrace, hcount]
    · obtain ⟨s, t, hs, hsf, hperm⟩ := (fcmDeactCond_iff d).mp hcond
      subst hsf
      simp [fcmSuccess, hs]
  · intro docs u tok
    cases tok with
    | error e => simp [fcmDispatchTrace]
    | ok t =>
      have hb := fcmBatch_update_map docs (fun _ => Except.error u)
      have hemp : (fcmBatch (docs.map
          (fun d2 => { d2 with updateResult := Except.error u }))).isEmpty =
          (fcmBatch docs).isEmpty := by
        rw [hb]
        cases fcmBatch docs <;> simp
      by_cases he : (fcmBatch docs).isEmpty
      · simp [fcmDispatchTrace, hemp, he]
      · simp only [fcmDispatchTrace, hemp, he, if_neg, Bool.false_eq_true,
          not_false_iff]
        rw [hb, fcmLoop_update_irrel (fcmBatch docs) 0 (fun _ => Except.error u)]

/-- C3 witness: one concrete cycle per provider in which the failed
endpoint is deactivated exactly once, the counts exclude it, and the
trace is identical when every update call raises. -/
theorem permanent_failure_deactivates_once_witness :
    ((apnsDispatchTrace ⟨.ok
        [⟨some "t0", false, (true, ""), .ok ()⟩,
         ⟨some "t1", false, (false, "Unregistered"), .error "store down"⟩]⟩).deactAttempts.count 1 = 1 ∧
      send_apns_notifications ⟨.ok
        [⟨some "t0", false, (true, ""), .ok ()⟩,
         ⟨some "t1", false, (false, "Unregistered"), .error "store down"⟩]⟩ = 1) ∧
    ∃ tr, fcmDispatchTrace
        ⟨.ok "at", .ok [⟨"d0", some "tk0", .ok (false, "UNREGISTERED text"), .error "store down"⟩]⟩ =
        .ok tr ∧ tr.deactAttempts.count 0 = 1 := by
  have h := permanent_failure_deactivates_once
  obtain ⟨hB, hBu, hF, hFu⟩ := h
  have hBapp := hB
    ⟨.ok [⟨some "t0", false, (true, ""), .ok ()⟩,
          ⟨some "t1", false, (false, "Unregistered"), .error "store down"⟩]⟩
    [⟨some "t0", false, (true, ""), .ok ()⟩,
     ⟨some "t1", false, (false, "Unregistered"), .error "store down"⟩]
    1 ⟨some "t1", false, (false, "Unregistered"), .error "store down"⟩
    rfl rfl (by decide)
  refine ⟨⟨hBapp.1, ?_⟩, ?_⟩
  · rw [hBapp.2.1]
    decide
  · have hok : ∀ d2 ∈ fcmBatch
        [⟨"d0", some "tk0", .ok (false, "UNREGISTERED text"), .error "store down"⟩],
        ∃ p, d2.sendResult = Except.ok p := by
      intro d2 hd
      have hb : fcmBatch
          [⟨"d0", some "tk0", .ok (false, "UNREGISTERED text"), .error "store down"⟩] =
          [⟨"d0", some "tk0", .ok (false, "UNREGISTERED text"), .error "store down"⟩] := by decide
      rw [hb, List.mem_singleton] at hd
      subst hd
      exact ⟨(false, "UNREGISTERED text"), rfl⟩
    obtain ⟨tr, htr, hcnt, -, -⟩ := hF
      ⟨.ok "at", .ok [⟨"d0", some "tk0", .ok (false, "UNREGISTERED text"), .error "store down"⟩]⟩
      "at" [⟨"d0", some "tk0", .ok (false, "UNREGISTERED text"), .error "store down"⟩]
      0 ⟨"d0", some "tk0", .ok (false, "UNREGISTERED text"), .error "store down"⟩
      rfl rfl hok (by decide) (by decide)
    exact ⟨tr, htr, hcnt⟩

/-! ## Claim C8 -/

/-- C8: when every endpoint in the listed batch has a token and every
send succeeds, the dispatch returns the batch size and issues no
deactivation call, for both providers. -/
theorem all_success_full_count :
    (∀ (env : ApnsEnv) (docs : List ApnsDoc), env.listDocs = .ok docs →
      (∀ d ∈ docs, truthyStr d.token = true ∧ d.sendResult.1 = true) →
      send_apns_notifications env = docs.length ∧
      (apnsDispatchTrace env).deactAttempts = []) ∧
    (∀ (env : FcmEnv) (tok : String) (docs : List FcmDoc),
      env.accessToken = .ok tok → env.listDocs = .ok docs →
      (∀ d ∈ docs, truthyStr d.token = true ∧ ∃ t, d.sendResult = .ok (true, t)) →
      send_fcm_notifications env = docs.length ∧
      fcmDispatchTrace env = .ok ⟨docs.length, []⟩) := by
  constructor
  · intro env docs h hall
    cases docs with
    | nil => simp [send_apns_notifications, apnsDispatchTrace, h]
    | cons d0 ds =>
      have htrace : apnsDispatchTrace env = apnsLoop (d0 :: ds) 0 := by
        simp [apnsDispatchTrace, h]
      constructor
      · show (apnsDispatchTrace env).successCount = _
        rw [htrace, apnsLoop_successCount]
        exact List.countP_eq_length.mpr fun d hd => by
          obtain ⟨h1, h2⟩ := hall d hd
          simp [apnsSuccess, h1, h2]
      · rw [htrace]
        refine List.eq_nil_iff_forall_not_mem.mpr fun j hj => ?_
        obtain ⟨k, d, hget, -, hcond⟩ := (apnsLoop_deact_mem _ 0 j).mp hj
        obtain ⟨-, h2, -⟩ := (apnsDeactCond_iff d).mp hcond
        obtain ⟨-, h4⟩ := hall d (List.getElem?_mem hget)
        rw [h2] at h4
        exact Bool.false_ne_true h4
  · intro env tok docs hat h hall
    have hbatch : fcmBatch docs = docs :=
      List.filter_eq_self.mpr fun d hd => (hall d hd).1
    have hok : ∀ d ∈ fcmBatch docs, ∃ p, d.sendResult = Except.ok p := by
      rw [hbatch]
      intro d hd
      obtain ⟨-, t, ht⟩ := hall d hd
      exact ⟨(true, t), ht⟩
    cases hd0 : docs with
    | nil =>
      subst hd0
      constructor
      · simp [send_fcm_notifications, fcmDispatchTrace, hat, h, fcmBatch]
      · simp [fcmDispatchTrace, hat, h, fcmBatch]
    | cons d0 ds =>
      rw [← hd0]
      have hne : ¬(fcmBatch docs).isEmpty := by
        rw [hbatch, hd0]
        simp
      obtain ⟨tr, htr, hcount, hmem, -⟩ := fcmLoop_ok (fcmBatch docs) 0 hok
      have htrace : fcmDispatchTrace env = .ok tr := by
        simp [fcmDispatchTrace, hat, h, hne, htr]
      have hcnt : tr.successCount = docs.length := by
        rw [hcount, hbatch]
        exact List.countP_eq_length.mpr fun d hd => by
          obtain ⟨-, t, ht⟩ := hall d hd
          simp [fcmSuccess, ht]
      have hdeact : tr.deactAttempts = [] := by
        refine List.eq_nil_iff_forall_not_mem.mpr fun j hj => ?_
        obtain ⟨k, d, hget, -, hcond⟩ := (hmem j).mp hj
        obtain ⟨s, t, hs, hsf, -⟩ := (fcmDeactCond_iff d).mp hcond
        have hd : d ∈ docs := by
          rw [← hbatch]
          exact List.getElem?_mem hget
        obtain ⟨-, t2, ht2⟩ := hall d hd
        rw [ht2] at hs
        simp only [Except.ok.injEq, Prod.mk.injEq] at hs
        subst hsf
        simp at hs
      constructor
      · simp [send_fcm_notifications, htrace, hcnt]
      · rw [htrace]
        cases tr
        simp_all

/-- C8 witness: two concrete all-success batches of size two. -/
theorem all_success_full_count_witness :
    send_apns_notifications ⟨.ok
      [⟨some "t0", false, (true, ""), .ok ()⟩,
       ⟨some "t1", true, (true, ""), .ok ()⟩]⟩ = 2 ∧
    send_fcm_notifications ⟨.ok "at", .ok
      [⟨"d0", some "tk0", .ok (true, "ok"), .ok ()⟩,
       ⟨"d1", some "tk1", .ok (true, "ok"), .ok ()⟩]⟩ = 2 := by
  have h := all_success_full_count
  constructor
  · exact (h.1
      ⟨.ok [⟨some "t0", false, (true, ""), .ok ()⟩,
            ⟨some "t1", true, (true, ""), .ok ()⟩]⟩
      [⟨some "t0", false, (true, ""), .ok ()⟩,
       ⟨some "t1", true, (true, ""), .ok ()⟩]
      rfl (by decide)).1
  · refine (h.2
      ⟨.ok "at", .ok [⟨"d0", some "tk0", .ok (true, "ok"), .ok ()⟩,
                      ⟨"d1", some "tk1", .ok (true, "ok"), .ok ()⟩]⟩
      "at"
      [⟨"d0", some "tk0", .ok (true, "ok"), .ok ()⟩,
       ⟨"d1", some "tk1", .ok (true, "ok"), .ok ()⟩]
      rfl rfl ?_).1
    intro d hd
    rcases List.mem_cons.mp hd with h1 | h1
    · subst h1
      exact ⟨by decide, "ok", rfl⟩
    · rcases List.mem_cons.mp h1 with h2 | h2
      · subst h2
        exact ⟨by decide, "ok", rfl⟩
      · simp at h2

/-! ## Claim C10 -/

/-- C10: an active record without a token value is silently skipped —
for provider B it is never deactivated and contributes nothing to the
count (which counts only truthy-token successful sends), and a batch of
only tokenless records returns 0; for provider A a tokenless record is
excluded from the batch before the empty-batch check, and a listing of
only tokenless records returns 0. -/
theorem tokenless_skipped :
    (∀ (env : ApnsEnv) (docs : List ApnsDoc) (k : Nat) (d : ApnsDoc),
      env.listDocs = .ok docs → docs[k]? = some d → truthyStr d.token = false →
      k ∉ (apnsDispatchTrace env).deactAttempts ∧
      send_apns_notifications env = docs.countP apnsSuccess ∧
      apnsSuccess d = false) ∧
    (∀ (env : ApnsEnv) (docs : List ApnsDoc), env.listDocs = .ok docs →
      (∀ d ∈ docs, truthyStr d.token = false) →
      send_apns_notifications env = 0) ∧
    (∀ (docs : List FcmDoc) (d : FcmDoc),
      truthyStr d.token = false → d ∉ fcmBatch docs) ∧
    (∀ (env : FcmEnv) (tok : String) (docs : List FcmDoc),
      env.accessToken = .ok tok → env.listDocs = .ok docs →
      (∀ d ∈ docs, truthyStr d.token = false) →
      fcmBatch docs = [] ∧ send_fcm_notifications env = 0) := by
  refine ⟨?_, ?_, ?_, ?_⟩
  · intro env docs k d h hget htok
    have hne : ¬docs.isEmpty := by
      cases docs with
      | nil => simp at hget
      | cons d0 ds => simp
    have htrace : apnsDispatchTrace env = apnsLoop docs 0 := by
      simp [apnsDispatchTrace, h, hne]
    refine ⟨?_, ?_, ?_⟩
    · rw [htrace]
      intro hmem
      obtain ⟨k2, d2, hget2, hk2, hcond⟩ := (apnsLoop_deact_mem docs 0 k).mp hmem
      have hk : k2 = k := by omega
      subst hk
      rw [hget] at hget2
      obtain rfl : d = d2 := by simpa using hget2
      obtain ⟨h1, -, -⟩ := (apnsDeactCond_iff d).mp hcond
      rw [htok] at h1
      exact Bool.false_ne_true h1
    · show (apnsDispatchTrace env).successCount = _
      rw [htrace, apnsLoop_successCount]
    · simp [apnsSuccess, htok]
  · intro env docs h hall
    show (apnsDispatchTrace env).successCount = 0
    cases docs with
    | nil => simp [apnsDispatchTrace, h]
    | cons d0 ds =>
      have htrace : apnsDispatchTrace env = apnsLoop (d0 :: ds) 0 := by
        simp [apnsDispatchTrace, h]
      rw [htrace, apnsLoop_successCount]
      rw [List.countP_eq_zero]
      intro d hd
      simp [apnsSuccess, hall d hd]
  · intro docs d htok hmem
    have := List.of_mem_filter hmem
    rw [htok] at this
    exact Bool.false_ne_true this
  · intro env tok docs hat h hall
    have hbatch : fcmBatch docs = [] := by
      rw [fcmBatch, List.filter_eq_nil_iff]
      intro d hd
      simp [hall d hd]
    refine ⟨hbatch, ?_⟩
    simp [send_fcm_notifications, fcmDispatchTrace, hat, h, hbatch]

/-- C10 witness: a provider-B batch with one tokenless and one empty
token record returns 0 with no deactivation call despite permanent
failure reasons attached, and a provider-A listing of two tokenless
records returns 0 with an empty batch. -/
theorem tokenless_skipped_witness :
    (0 ∉ (apnsDispatchTrace ⟨.ok
        [⟨none, false, (false, "BadDeviceToken"), .ok ()⟩,
         ⟨some "", false, (false, "Unregistered"), .ok ()⟩]⟩).deactAttempts ∧
      send_apns_notifications ⟨.ok
        [⟨none, false, (false, "BadDeviceToken"), .ok ()⟩,
         ⟨some "", false, (false, "Unregistered"), .ok ()⟩]⟩ = 0) ∧
    fcmBatch [⟨"d0", none, .ok (true, "ok"), .ok ()⟩,
              ⟨"d1", some "", .ok (true, "ok"), .ok ()⟩] = [] ∧
    send_fcm_notifications ⟨.ok "at", .ok
      [⟨"d0", none, .ok (true, "ok"), .ok ()⟩,
       ⟨"d1", some "", .ok (true, "ok"), .ok ()⟩]⟩ = 0 := by
  have h := tokenless_skipped
  obtain ⟨hB, hBall, hFex, hFall⟩ := h
  have hall : ∀ d ∈ ([⟨none, false, (false, "BadDeviceToken"), .ok ()⟩,
      ⟨some "", false, (false, "Unregistered"), .ok ()⟩] : List ApnsDoc),
      truthyStr d.token = false := by decide
  have hallF : ∀ d ∈ ([⟨"d0", none, .ok (true, "ok"), .ok ()⟩,
      ⟨"d1", some "", .ok (true, "ok"), .ok ()⟩] : List FcmDoc),
      truthyStr d.token = false := by
    intro d hd
    rcases List.mem_cons.mp hd with h1 | h1
    · subst h1; decide
    · rcases List.mem_cons.mp h1 with h2 | h2
      · subst h2; decide
      · simp at h2
  have hFapp := hFall
    ⟨.ok "at", .ok [⟨"d0", none, .ok (true, "ok"), .ok ()⟩,
                    ⟨"d1", some "", .ok (true, "ok"), .ok ()⟩]⟩
    "at"
    [⟨"d0", none, .ok (true, "ok"), .ok ()⟩,
     ⟨"d1", some "", .ok (true, "ok"), .ok ()⟩]
    rfl rfl hallF
  refine ⟨⟨?_, ?_⟩, hFapp.1, hFapp.2⟩
  · exact (hB
      ⟨.ok [⟨none, false, (false, "BadDeviceToken"), .ok ()⟩,
            ⟨some "", false, (false, "Unregistered"), .ok ()⟩]⟩
      [⟨none, false, (false, "BadDeviceToken"), .ok ()⟩,
       ⟨some "", false, (false, "Unregistered"), .ok ()⟩]
      0 ⟨none, false, (false, "BadDeviceToken"), .ok ()⟩
      rfl rfl (by decide)).1
  · exact hBall
      ⟨.ok [⟨none, false, (false, "BadDeviceToken"), .ok ()⟩,
            ⟨some "", false, (false, "Unregistered"), .ok ()⟩]⟩
      [⟨none, false, (false, "BadDeviceToken"), .ok ()⟩,
       ⟨some "", false, (false, "Unregistered"), .ok ()⟩]
      rfl hall

/-! ## Claim C2 -/

/-- C2: dispatch never lets an exception past its boundary — a failing
credential exchange, a failing listing, or a raising send inside the
provider-A loop are all folded by the outer catch into an integer
return of 0; in every case the provider-A dispatcher returns either its
loop's count or 0, and the provider-B dispatcher with unavailable
credentials (every send failing with the credential sentinel reason)
returns 0 without deactivating anything. -/
theorem dispatch_never_raises :
    (∀ (env : FcmEnv) (e : String), env.accessToken = .error e →
      send_fcm_notifications env = 0) ∧
    (∀ (env : FcmEnv) (e : String), env.listDocs = .error e →
      send_fcm_notifications env = 0) ∧
    (∀ (env : FcmEnv) (docs : List FcmDoc) (d : FcmDoc) (e : String),
      env.listDocs = .ok docs → d ∈ fcmBatch docs → d.sendResult = .error e →
      send_fcm_notifications env = 0) ∧
    (∀ env : FcmEnv, (∃ tr, fcmDispatchTrace env = .ok tr ∧
      send_fcm_notifications env = tr.successCount) ∨
      send_fcm_notifications env = 0) ∧
    (∀ (env : ApnsEnv) (e : String), env.listDocs = .error e →
      send_apns_notifications env = 0) ∧
    (∀ (env : ApnsEnv) (docs : List ApnsDoc), env.listDocs = .ok docs →
      (∀ d ∈ docs, d.sendResult = (false, "No APNs credentials")) →
      send_apns_notifications env = 0 ∧
      (apnsDispatchTrace env).deactAttempts = []) := by
  refine ⟨?_, ?_, ?_, ?_, ?_, ?_⟩
  · intro env e h
    simp [send_fcm_notifications, fcmDispatchTrace, h]
  · intro env e h
    cases hat : env.accessToken with
    | error e2 => simp [send_fcm_notifications, fcmDispatchTrace, hat]
    | ok tok => simp [send_fcm_notifications, fcmDispatchTrace, hat, h]
  · intro env docs d e h hd hs
    cases hat : env.accessToken with
    | error e2 => simp [send_fcm_notifications, fcmDispatchTrace, hat]
    | ok tok =>
      have hne : ¬(fcmBatch docs).isEmpty := by
        cases hb : fcmBatch docs with
        | nil => rw [hb] at hd; simp at hd
        | cons d0 ds => simp
      obtain ⟨e2, h2⟩ := fcmLoop_error (fcmBatch docs) 0 d e hd hs
      simp [send_fcm_notifications, fcmDispatchTrace, hat, h, hne, h2]
  · intro env
    cases htr : fcmDispatchTrace env with
    | error e => right; simp [send_fcm_notifications, htr]
    | ok tr => left; exact ⟨tr, rfl, by simp [send_fcm_notifications, htr]⟩
  · intro env e h
    simp [send_apns_notifications, apnsDispatchTrace, h]
  · intro env docs h hall
    cases docs with
    | nil => simp [send_apns_notifications, apnsDispatchTrace, h]
    | cons d0 ds =>
      have htrace : apnsDispatchTrace env = apnsLoop (d0 :: ds) 0 := by
        simp [apnsDispatchTrace, h]
      constructor
      · show (apnsDispatchTrace env).successCount = 0
        rw [htrace, apnsLoop_successCount, List.countP_eq_zero]
        intro d hd
        simp [apnsSuccess, hall d hd]
      · rw [htrace]
        refine List.eq_nil_iff_forall_not_mem.mpr fun j hj => ?_
        obtain ⟨k, d, hget, -, hcond⟩ := (apnsLoop_deact_mem _ 0 j).mp hj
        obtain ⟨-, -, h3⟩ := (apnsDeactCond_iff d).mp hcond
        rw [hall d (List.getElem?_mem hget)] at h3
        exact absurd h3 (by decide)

/-- C2 witness: concrete failing environments for every caught failure
mode, each returning the integer 0. -/
theorem dispatch_never_raises_witness :
    send_fcm_notifications ⟨.error "oauth exchange failed", .ok []⟩ = 0 ∧
    send_fcm_notifications ⟨.ok "at", .error "firestore stream failed"⟩ = 0 ∧
    send_fcm_notifications ⟨.ok "at", .ok
      [⟨"d0", some "tk0", .error "connection reset", .ok ()⟩]⟩ = 0 ∧
    send_apns_notifications ⟨.error "firestore stream failed"⟩ = 0 ∧
    send_apns_notifications ⟨.ok
      [⟨some "t0", false, (false, "No APNs credentials"), .ok ()⟩]⟩ = 0 := by
  have h := dispatch_never_raises
  obtain ⟨h1, h2, h3, -, h5, h6⟩ := h
  refine ⟨h1 ⟨.error "oauth exchange failed", .ok []⟩ "oauth exchange failed" rfl,
    h2 ⟨.ok "at", .error "firestore stream failed"⟩ "firestore stream failed" rfl,
    h3 ⟨.ok "at", .ok [⟨"d0", some "tk0", .error "connection reset", .ok ()⟩]⟩
      [⟨"d0", some "tk0", .error "connection reset", .ok ()⟩]
      ⟨"d0", some "tk0", .error "connection reset", .ok ()⟩
      "connection reset" rfl (by decide) rfl,
    h5 ⟨.error "firestore stream failed"⟩ "firestore stream failed" rfl,
    (h6 ⟨.ok [⟨some "t0", false, (false, "No APNs credentials"), .ok ()⟩]⟩
      [⟨some "t0", false, (false, "No APNs credentials"), .ok ()⟩]
      rfl (by decide)).1⟩

/-! ## Claim C5 -/

/-- C5 counterexample: with the key fetch succeeding and the key-id
fetch failing, the failed attempt leaves the key global assigned — the
cache state differs from the cleared state — and the next call, even
against a store now holding fresh values, returns the stale partial
triple instead of re-fetching all three values. -/
theorem credential_cache_not_atomic :
    (get_apns_credentials ⟨.ok "KEY", .error "fetch failed", .ok "TEAM"⟩
        reset_apns_credentials).2 ≠ reset_apns_credentials ∧
    (get_apns_credentials ⟨.ok "KEY2", .ok "ID2", .ok "TEAM2"⟩
        (get_apns_credentials ⟨.ok "KEY", .error "fetch failed", .ok "TEAM"⟩
          reset_apns_credentials).2).1 = (some "KEY", none, none) := by
  refine ⟨by decide, by decide⟩

/-- C5 amended: the discard-on-failure behaviour holds only when the
first fetch (the signing key) fails — then nothing is cached and the
next call starts over; when a later fetch fails, every value fetched
before the failure stays assigned to its global, and the next call
returns that partial tuple from the cache without touching the secret
store. -/
theorem credential_cache_partial_caching :
    (∀ (env : SecretStore) (e : String), env.fetchKey = .error e →
      get_apns_credentials env reset_apns_credentials =
        ((none, none, none), reset_apns_credentials)) ∧
    (∀ (env : SecretStore) (k e : String), env.fetchKey = .ok k →
      env.fetchKeyId = .error e →
      get_apns_credentials env reset_apns_credentials =
        ((none, none, none), ⟨some k, none, none⟩) ∧
      ∀ env2 : SecretStore, get_apns_credentials env2 ⟨some k, none, none⟩ =
        ((some k, none, none), ⟨some k, none, none⟩)) ∧
    (∀ (env : SecretStore) (k kid e : String), env.fetchKey = .ok k →
      env.fetchKeyId = .ok kid → env.fetchTeamId = .error e →
      get_apns_credentials env reset_apns_credentials =
        ((none, none, none), ⟨some k, some (pyStrip kid), none⟩) ∧
      ∀ env2 : SecretStore,
        get_apns_credentials env2 ⟨some k, some (pyStrip kid), none⟩ =
          ((some k, some (pyStrip kid), none),
            ⟨some k, some (pyStrip kid), none⟩)) := by
  refine ⟨?_, ?_, ?_⟩
  · intro env e h
    simp [get_apns_credentials, reset_apns_credentials, h]
  · intro env k e h1 h2
    constructor
    · simp [get_apns_credentials, reset_apns_credentials, h1, h2]
    · intro env2
      simp [get_apns_credentials]
  · intro env k kid e h1 h2 h3
    constructor
    · simp [get_apns_credentials, reset_apns_credentials, h1, h2, h3]
    · intro env2
      simp [get_apns_credentials]

/-- C5 amended witness: the three failure points at concrete secret
values, with the partial cache returned verbatim by a second call
against a fully healthy store. -/
theorem credential_cache_partial_caching_witness :
    get_apns_credentials ⟨.error "down", .ok "ID", .ok "TEAM"⟩
        reset_apns_credentials = ((none, none, none), reset_apns_credentials) ∧
    get_apns_credentials ⟨.ok "KEY", .error "down", .ok "TEAM"⟩
        reset_apns_credentials = ((none, none, none), ⟨some "KEY", none, none⟩) ∧
    get_apns_credentials ⟨.ok "K2", .ok "I2", .ok "T2"⟩ ⟨some "KEY", none, none⟩ =
        ((some "KEY", none, none), ⟨some "KEY", none, none⟩) ∧
    get_apns_credentials ⟨.ok "KEY", .ok "ID", .error "down"⟩
        reset_apns_credentials =
        ((none, none, none), ⟨some "KEY", some (pyStrip "ID"), none⟩) := by
  have h := credential_cache_partial_caching
  have h2 := h.2.1 ⟨.ok "KEY", .error "down", .ok "TEAM"⟩ "KEY" "down" rfl rfl
  have h3 := h.2.2 ⟨.ok "KEY", .ok "ID", .error "down"⟩ "KEY" "ID" "down" rfl rfl rfl
  exact ⟨h.1 ⟨.error "down", .ok "ID", .ok "TEAM"⟩ "down" rfl,
    h2.1, h2.2 ⟨.ok "K2", .ok "I2", .ok "T2"⟩, h3.1⟩

/-! ## Claim C6 -/

/-- C6 counterexample: on a non-success response whose body fails to
parse as JSON, only the shared implementation falls back to the
HTTP-status reason; the duplicated sender of notifier/main.py has no
inner try around the parse, so the parse exception reaches the
catch-all and the failure reason is the exception text, not the claimed
HTTP-status fallback. -/
theorem unparseable_body_reason_mismatch :
    send_apns_notification true (.ok ⟨400, true, .error "Expecting value"⟩) =
      (false, "HTTP 400") ∧
    send_apns_notification_dup true (.ok ⟨400, true, .error "Expecting value"⟩) =
      (false, "Expecting value") ∧
    ("Expecting value" : String) ≠ "HTTP 400" := by
  refine ⟨by decide, by decide, by decide⟩

/-- C6 amended: for a single provider-B send, in the shared and in the
duplicated implementation alike, a 200 response yields success with an
empty reason, a non-200 response yields failure with the body's reason
field when present and the HTTP-status string when the body is absent
or lacks the field, and a network-level exception is returned as a
failure carrying the exception text, never propagated; the two
implementations differ only on a present-but-unparseable body, where
the shared sender falls back to the HTTP-status string while the
duplicated sender reports the parse exception's text. -/
theorem apns_send_response_handling :
    (∀ e : String, send_apns_notification true (.error e) = (false, e)) ∧
    (∀ r : ApnsResponse, r.status = 200 →
      send_apns_notification true (.ok r) = (true, "")) ∧
    (∀ (r : ApnsResponse) (rs : String), r.status ≠ 200 → r.hasContent = true →
      r.jsonReason = .ok (some rs) →
      send_apns_notification true (.ok r) = (false, rs)) ∧
    (∀ r : ApnsResponse, r.status ≠ 200 → r.hasContent = false →
      send_apns_notification true (.ok r) =
        (false, "HTTP " ++ toString r.status)) ∧
    (∀ r : ApnsResponse, r.status ≠ 200 → r.hasContent = true →
      r.jsonReason = .ok none →
      send_apns_notification true (.ok r) =
        (false, "HTTP " ++ toString r.status)) ∧
    (∀ (r : ApnsResponse) (pe : String), r.status ≠ 200 → r.hasContent = true →
      r.jsonReason = .error pe →
      send_apns_notification true (.ok r) =
        (false, "HTTP " ++ toString r.status)) ∧
    (∀ (r : ApnsResponse) (pe : String), r.status ≠ 200 → r.hasContent = true →
      r.jsonReason = .error pe →
      send_apns_notification_dup true (.ok r) = (false, pe)) ∧
    (∀ e : String, send_apns_notification_dup true (.error e) = (false, e)) ∧
    (∀ r : ApnsResponse, r.status = 200 →
      send_apns_notification_dup true (.ok r) = (true, "")) ∧
    (∀ (r : ApnsResponse) (rs : String), r.status ≠ 200 → r.hasContent = true →
      r.jsonReason = .ok (some rs) →
      send_apns_notification_dup true (.ok r) = (false, rs)) ∧
    (∀ r : ApnsResponse, r.status ≠ 200 → r.hasContent = false →
      send_apns_notification_dup true (.ok r) =
        (false, "HTTP " ++ toString r.status)) ∧
    (∀ r : ApnsResponse, r.status ≠ 200 → r.hasContent = true →
      r.jsonReason = .ok none →
      send_apns_notification_dup true (.ok r) =
        (false, "HTTP " ++ toString r.status)) := by
  refine ⟨?_, ?_, ?_, ?_, ?_, ?_, ?_, ?_, ?_, ?_, ?_, ?_⟩ <;>
    intro r <;>
    first
      | (intro rs h1 h2 h3
         simp [send_apns_notification, send_apns_notification_dup, h1, h2, h3])
      | (intro h1 h2 h3
         simp [send_apns_notification, send_apns_notification_dup, h1, h2, h3])
      | (intro h1 h2
         simp [send_apns_notification, send_apns_notification_dup, h1, h2])
      | (intro h1
         simp [send_apns_notification, send_apns_notification_dup, h1])
      | simp [send_apns_notification, send_apns_notification_dup]

/-- C6 amended witness: each response-handling case evaluated at a
concrete response, for the shared sender and for the duplicated one. -/
theorem apns_send_response_handling_witness :
    send_apns_notification true (.error "timeout") = (false, "timeout") ∧
    send_apns_notification true (.ok ⟨200, true, .ok none⟩) = (true, "") ∧
    send_apns_notification true (.ok ⟨400, true, .ok (some "BadDeviceToken")⟩) =
      (false, "BadDeviceToken") ∧
    send_apns_notification true (.ok ⟨500, false, .ok none⟩) = (false, "HTTP 500") ∧
    send_apns_notification true (.ok ⟨410, true, .ok none⟩) = (false, "HTTP 410") ∧
    send_apns_notification true (.ok ⟨400, true, .error "bad json"⟩) =
      (false, "HTTP 400") ∧
    send_apns_notification_dup true (.ok ⟨400, true, .error "bad json"⟩) =
      (false, "bad json") ∧
    send_apns_notification_dup true (.error "timeout") = (false, "timeout") ∧
    send_apns_notification_dup true (.ok ⟨200, true, .ok none⟩) = (true, "") ∧
    send_apns_notification_dup true (.ok ⟨400, true, .ok (some "Unregistered")⟩) =
      (false, "Unregistered") ∧
    send_apns_notification_dup true (.ok ⟨503, false, .ok none⟩) = (false, "HTTP 503") ∧
    send_apns_notification_dup true (.ok ⟨410, true, .ok none⟩) = (false, "HTTP 410") := by
  obtain ⟨h1, h2, h3, h4, h5, h6, h7, h8, h9, h10, h11, h12⟩ :=
    apns_send_response_handling
  exact ⟨h1 "timeout",
    h2 ⟨200, true, .ok none⟩ rfl,
    h3 ⟨400, true, .ok (some "BadDeviceToken")⟩ "BadDeviceToken"
      (by decide) rfl rfl,
    h4 ⟨500, false, .ok none⟩ (by decide) rfl,
    h5 ⟨410, true, .ok none⟩ (by decide) rfl rfl,
    h6 ⟨400, true, .error "bad json"⟩ "bad json" (by decide) rfl rfl,
    h7 ⟨400, true, .error "bad json"⟩ "bad json" (by decide) rfl rfl,
    h8 "timeout",
    h9 ⟨200, true, .ok none⟩ rfl,
    h10 ⟨400, true, .ok (some "Unregistered")⟩ "Unregistered"
      (by decide) rfl rfl,
    h11 ⟨503, false, .ok none⟩ (by decide) rfl,
    h12 ⟨410, true, .ok none⟩ (by decide) rfl rfl⟩

/-! ## Claim C7 -/

theorem storeGet_setField (st : Store) (id2 id : String)
    (f : EndpointRec → EndpointRec) :
    storeGet (setField st id2 f) id =
      (storeGet st id).map (fun r => if id = id2 then f r else r) := by
  induction st with
  | nil => rfl
  | cons p ps ih =>
    by_cases h1 : p.1 = id
    · subst h1
      simp only [setField, List.map_cons, storeGet]
      rw [List.find?_cons_of_pos _ (by simp), List.find?_cons_of_pos _ (by simp)]
      simp
    · simp only [setField, List.map_cons, storeGet]
      rw [List.find?_cons_of_neg _ (by simp [h1]),
        List.find?_cons_of_neg _ (by simp [h1])]
      exact ih

theorem storeGet_append_single (st : Store) (id2 id : String)
    (r : EndpointRec) :
    storeGet (st ++ [(id2, r)]) id =
      match storeGet st id with
      | some r0 => some r0
      | none => if id2 = id then some r else none := by
  induction st with
  | nil =>
    by_cases h : id2 = id
    · simp only [List.nil_append, storeGet]
      rw [List.find?_cons_of_pos _ (by simp [h])]
      simp [h]
    · simp only [List.nil_append, storeGet]
      rw [List.find?_cons_of_neg _ (by simp [h])]
      simp [h, storeGet]
  | cons p ps ih =>
    by_cases h1 : p.1 = id
    · simp only [List.cons_append, storeGet]
      rw [List.find?_cons_of_pos _ (by simp [h1]),
        List.find?_cons_of_pos _ (by simp [h1])]
      simp
    · simp only [List.cons_append, storeGet]
      rw [List.find?_cons_of_neg _ (by simp [h1]),
        List.find?_cons_of_neg _ (by simp [h1])]
      exact ih

/-- C7: the dispatchers' listing never returns a record whose active
flag is false — only active records pass the query filter — and
deactivation is monotonic: after any store operation, a record can be
active only if the operation was a registration of that very document
or the record was already active before, registration being the only
operation that writes an active value of true. -/
theorem inactive_never_listed_and_monotonic :
    (∀ (st : Store) (p : String × EndpointRec), p ∈ listActive st →
      p.2.active = true) ∧
    (∀ (st : Store) (id : String) (rec : EndpointRec),
      (id, rec) ∈ st → rec.active = false → (id, rec) ∉ listActive st) ∧
    (∀ (op : StoreOp) (st : Store) (id : String) (rec : EndpointRec),
      storeGet (applyOp op st) id = some rec → rec.active = true →
      op = .register id ∨
        ∃ rec0, storeGet st id = some rec0 ∧ rec0.active = true) := by
  refine ⟨?_, ?_, ?_⟩
  · intro st p hp
    simp only [listActive] at hp
    exact @List.of_mem_filter _ (fun q : String × EndpointRec => q.2.active) p st hp
  · intro st id rec hmem hact hlist
    have := List.of_mem_filter hlist
    simp only at this
    rw [hact] at this
    exact Bool.false_ne_true this
  · intro op st id rec hget hact
    cases op with
    | deactivate id2 =>
      right
      rw [applyOp, storeGet_setField] at hget
      cases hg : storeGet st id with
      | none => rw [hg] at hget; simp at hget
      | some r0 =>
        rw [hg] at hget
        simp only [Option.map_some', Option.some.injEq] at hget
        refine ⟨r0, rfl, ?_⟩
        by_cases hid : id = id2
        · rw [if_pos hid] at hget
          subst hget
          simp at hact
        · rw [if_neg hid] at hget
          subst hget
          exact hact
    | unregister id2 =>
      right
      rw [applyOp] at hget
      by_cases hhas : storeHas st id2
      · rw [if_pos hhas, storeGet_setField] at hget
        cases hg : storeGet st id with
        | none => rw [hg] at hget; simp at hget
        | some r0 =>
          rw [hg] at hget
          simp only [Option.map_some', Option.some.injEq] at hget
          refine ⟨r0, rfl, ?_⟩
          by_cases hid : id = id2
          · rw [if_pos hid] at hget
            subst hget
            simp at hact
          · rw [if_neg hid] at hget
            subst hget
            exact hact
      · rw [if_neg hhas, storeGet_append_single] at hget
        cases hg : storeGet st id with
        | none =>
          rw [hg] at hget
          simp only at hget
          by_cases hid : id2 = id
          · rw [if_pos hid] at hget
            simp only [Option.some.injEq] at hget
            subst hget
            simp at hact
          · rw [if_neg hid] at hget
            simp at hget
        | some r0 =>
          rw [hg] at hget
          simp only [Option.some.injEq] at hget
          subst hget
          exact ⟨r0, rfl, hact⟩
    | register id2 =>
      by_cases hid : id = id2
      · subst hid
        left
        rfl
      · right
        rw [applyOp] at hget
        by_cases hhas : storeHas st id2
        · rw [if_pos hhas, storeGet_setField] at hget
          cases hg : storeGet st id with
          | none => rw [hg] at hget; simp at hget
          | some r0 =>
            rw [hg] at hget
            simp only [Option.map_some', Option.some.injEq] at hget
            rw [if_neg hid] at hget
            subst hget
            exact ⟨r0, rfl, hact⟩
        · rw [if_neg hhas, storeGet_append_single] at hget
          cases hg : storeGet st id with
          | none =>
            rw [hg] at hget
            simp only at hget
            rw [if_neg (fun h => hid h.symm)] at hget
            simp at hget
          | some r0 =>
            rw [hg] at hget
            simp only [Option.some.injEq] at hget
            subst hget
            exact ⟨r0, rfl, hact⟩

/-- C7 witness: on a concrete two-record store the inactive record is
not listed, and a concrete deactivation of one document leaves the
other's activity traceable to its prior state. -/
theorem inactive_never_listed_and_monotonic_witness :
    ("b", (⟨some "b", false⟩ : EndpointRec)) ∉ listActive
      [("a", ⟨some "a", true⟩), ("b", ⟨some "b", false⟩)] ∧
    (StoreOp.deactivate "b" = StoreOp.register "a" ∨
      ∃ rec0, storeGet [("a", (⟨some "a", true⟩ : EndpointRec))] "a" = some rec0 ∧
        rec0.active = true) := by
  have h := inactive_never_listed_and_monotonic
  constructor
  · exact h.2.1 [("a", ⟨some "a", true⟩), ("b", ⟨some "b", false⟩)] "b"
      ⟨some "b", false⟩ (by decide) rfl
  · exact h.2.2 (.deactivate "b") [("a", ⟨some "a", true⟩)] "a"
      ⟨some "a", true⟩ (by decide) rfl
